import Mathlib

/-!
Shallow embedding of the Emeraldrecords AI-assisted data workspace.

The development models the tool-call confirmation protocol of the chat
assistant components (`src/components/AiChatAssistant.tsx` and the workspace
variant in `src/unnamed/part_003`), the local record-store adapter
(`src/unnamed/part_014`), the dashboard record handlers
(`src/components/DashboardScreen.tsx`) and the client-side structured
filtering (`src/unnamed/part_009`).  Asynchronous handlers are modelled as
pure functions that take the outcome of the awaited network call as an
explicit argument and return the resulting component state together with a
log of the externally observable effects (gateway invocations, dispatched
tool calls, persisted store writes).
-/

namespace Emerald

/-- JSON-like field values carried by records and tool-call arguments. -/
inductive Value where
  | vNull
  | vStr (s : String)
  | vInt (n : Int)
  | vBool (b : Bool)
deriving DecidableEq, Repr

/-- The dynamic fields of a record: column id to value, in object key order. -/
abbrev Fields := List (String × Value)

/-- A record: the store-assigned `id` plus its dynamic fields
(`types.ts`: `{ id : string, [key: string]: any }`). -/
structure Rec where
  id : String
  fields : Fields
deriving DecidableEq, Repr

/-- Chat roles (`types.ts`: `role: 'user' | 'model'`). -/
inductive Role where
  | user
  | model
deriving DecidableEq, Repr

/-- One transcript entry (`types.ts`: `ChatMessage`). -/
structure ChatMessage where
  role : Role
  content : String
deriving DecidableEq, Repr

/-- Filter operators (`part_016`: `FilterOperator`). -/
inductive FilterOperator where
  | EQUALS
  | CONTAINS
  | GREATER_THAN
  | LESS_THAN
  | NOT_EQUALS
deriving DecidableEq, Repr

/-- A structured filter (`part_016`: `Filter`). -/
structure Filter where
  columnId : String
  operator : FilterOperator
  value : Value
deriving DecidableEq, Repr

/-- The loose `args` mapping of a tool call.  Each field is optional because
the payload is an untyped JS object; an absent field is `none`. -/
structure Args where
  recordData : Option Fields
  record : Option Fields
  recordId : Option String
  updates : Option Fields
  filters : Option (List Filter)
  confirmationMessage : Option String
  responseMessage : Option String
deriving DecidableEq, Repr

/-- An `Args` with every field absent. -/
def Args.empty : Args := ⟨none, none, none, none, none, none, none⟩

/-- Tool-call payload of the `components/AiChatAssistant.tsx` variant: the
gateway (`src/api/gemini.ts`, chat handler) returns
`{name, args, confirmationMessage}` with a top-level confirmation string. -/
structure ToolCallPayload where
  name : String
  args : Args
  confirmationMessage : String
deriving DecidableEq, Repr

/-- Tool-call payload of the workspace variant (`part_016`):
`{name, args}` with the confirmation message inside `args`. -/
structure WToolCall where
  name : String
  args : Args
deriving DecidableEq, Repr

/-- Local component state of a chat assistant, parameterised over the
tool-call payload type of the variant. -/
structure ChatState (τ : Type) where
  messages : List ChatMessage
  userInput : String
  isLoading : Bool
  pendingToolCall : Option τ
deriving DecidableEq, Repr

/-- Gateway response shape: `{ text?: string, toolCall?: ... }`. -/
structure AiResponse (τ : Type) where
  toolCall : Option τ
  text : Option String
deriving DecidableEq, Repr

/-- The fixed success acknowledgment appended after a confirmed action. -/
def doneMsg : String := "Done. I\x27ve made the change."

/-- The error acknowledgment appended when a confirmed dispatch throws. -/
def actionErrorMsg : String := "It looks like there was an error performing that action."

/-- The cancellation acknowledgment appended by the cancel handler. -/
def cancelMsg : String := "Okay, I\x27ve cancelled the request."

/-- The fallback message appended for an empty gateway response. -/
def unexpectedMsg : String := "Sorry, I received an unexpected response. Please try again."

/-- The generic message appended when the gateway call rejects. -/
def chatErrorMsg : String := "Sorry, I encountered an error. Please try again."

/-- The incomplete-response error of the workspace variant. -/
def incompleteMsg : String := "Sorry, the AI\x27s response was incomplete. Please try again."

/-- Default confirmation substituted by the gateway
(`gemini.ts`: `call.args.confirmationMessage || "Please confirm this action."`). -/
def defaultConfirmMsg : String := "Please confirm this action."

/-- JS whitespace for `String.prototype.trim`. -/
def isJsWhitespace (c : Char) : Bool :=
  c == ' ' || c == '\t' || c == '\n' || c == '\r'

/-- JS `s.trim()` as an explicit character-list computation. -/
def jsTrim (s : String) : String :=
  String.mk (((s.toList.dropWhile isJsWhitespace).reverse.dropWhile
    isJsWhitespace).reverse)

/-- JS `s.toLowerCase()` as an explicit character-list computation. -/
def toLowerStr (s : String) : String :=
  String.mk (s.toList.map Char.toLower)

/-- A user transcript entry. -/
def userMsg (c : String) : ChatMessage := ⟨Role.user, c⟩

/-- A model transcript entry. -/
def modelMsg (c : String) : ChatMessage := ⟨Role.model, c⟩

/-- Result of a send-message handler: the new component state and the list of
gateway invocations it performed (each recorded with its history argument). -/
structure SendResult (τ : Type) where
  state : ChatState τ
  gatewayCalls : List (List ChatMessage)
deriving DecidableEq, Repr

/-- Embedding of `handleSendMessage` from `components/AiChatAssistant.tsx` (lines 34-60).
The awaited gateway call `getAiChatResponse` is supplied as a function from
the submitted history to its outcome (`Except.error` models a rejected
promise caught by the `catch` block). -/
def handleSendMessage (st : ChatState ToolCallPayload)
    (gateway : List ChatMessage → Except String (AiResponse ToolCallPayload)) :
    SendResult ToolCallPayload :=
  if jsTrim st.userInput == "" || st.isLoading || st.pendingToolCall.isSome then
    ⟨st, []⟩
  else
    let newHistory := st.messages ++ [userMsg st.userInput]
    let st1 : ChatState ToolCallPayload :=
      { st with messages := newHistory, userInput := "", isLoading := true }
    let st2 :=
      match gateway newHistory with
      | Except.ok resp =>
        match resp.toolCall with
        | some tc =>
          { st1 with
              messages := st1.messages ++ [modelMsg tc.confirmationMessage],
              pendingToolCall := some tc }
        | none =>
          match resp.text with
          | some t =>
            if t == "" then
              { st1 with messages := st1.messages ++ [modelMsg unexpectedMsg] }
            else
              { st1 with messages := st1.messages ++ [modelMsg t] }
          | none =>
            { st1 with messages := st1.messages ++ [modelMsg unexpectedMsg] }
      | Except.error _ =>
        { st1 with messages := st1.messages ++ [modelMsg chatErrorMsg] }
    ⟨{ st2 with isLoading := false }, [newHistory]⟩

/-- The three dashboard callbacks received as props by
`components/AiChatAssistant.tsx`, abstracted by their synchronous outcome
(the callbacks are `async`, so only a synchronous throw reaches the
handler's `catch`). -/
structure Callbacks where
  onAddRecord : Option Fields → Except String Unit
  onUpdateRecord : Option String → Option Fields → Except String Unit
  onDeleteRecord : Option String → Except String Unit

/-- The `switch (name)` dispatch inside `handleConfirmAction`
(`components/AiChatAssistant.tsx` lines 68-83); the `default` branch throws
`"Unknown action requested."`. -/
def dispatchSwitch (cb : Callbacks) (name : String) (args : Args) : Except String Unit :=
  if name == "addRecord" then cb.onAddRecord args.recordData
  else if name == "updateRecord" then cb.onUpdateRecord args.recordId args.updates
  else if name == "deleteRecord" then cb.onDeleteRecord args.recordId
  else Except.error ("Unknown action requested.")

/-- Result of the confirm handler: the new chat state and the tool calls it
dispatched to the dashboard callbacks. -/
structure ConfirmResult where
  state : ChatState ToolCallPayload
  dispatched : List (String × Args)
deriving Repr

/-- Embedding of `handleConfirmAction` from `components/AiChatAssistant.tsx` (lines 62-90):
guarded on a pending tool call; dispatches once; appends `doneMsg` on
success or `actionErrorMsg` when the dispatch throws; clears the pending
slot unconditionally. -/
def handleConfirmAction (st : ChatState ToolCallPayload) (cb : Callbacks) : ConfirmResult :=
  match st.pendingToolCall with
  | none => ⟨st, []⟩
  | some tc =>
    let ack :=
      match dispatchSwitch cb tc.name tc.args with
      | Except.ok _ => doneMsg
      | Except.error _ => actionErrorMsg
    ⟨{ st with
        messages := st.messages ++ [modelMsg ack],
        pendingToolCall := none },
      [(tc.name, tc.args)]⟩

/-- Embedding of `handleCancelAction` from `components/AiChatAssistant.tsx` (lines 92-95):
appends the cancellation acknowledgment and clears the slot, with no guard
and no other effect. -/
def handleCancelAction (st : ChatState ToolCallPayload) : ChatState ToolCallPayload :=
  { st with
      messages := st.messages ++ [modelMsg cancelMsg],
      pendingToolCall := none }

/-- The chat tool call built by the gateway for the components variant
(`src/api/gemini.ts`, chat handler, lines 349-353): a missing or empty
`args.confirmationMessage` (both falsy in JS) is replaced by
`defaultConfirmMsg` before the payload is returned to the component. -/
def gatewayToolCall (name : String) (args : Args) : ToolCallPayload :=
  { name := name
    args := args
    confirmationMessage :=
      match args.confirmationMessage with
      | some m => if m == "" then defaultConfirmMsg else m
      | none => defaultConfirmMsg }

/-- Effects of the workspace send handler: gateway invocations and `onSearch`
callback invocations (with their filter argument). -/
structure WsEffects where
  gatewayCalls : List (List ChatMessage)
  searchCalls : List (List Filter)
deriving DecidableEq, Repr

/-- Embedding of `handleSendMessage` from the workspace chat assistant
(`src/unnamed/part_003` lines 194-238).  `searchRecords` tool calls are
handled inline (optional `responseMessage` appended, `onSearch` invoked when
`filters` is present); any other tool call requires a non-empty
`args.confirmationMessage` string, else the incomplete-response error is
appended and no pending call is stored. -/
def wsHandleSendMessage (st : ChatState WToolCall)
    (gateway : List ChatMessage → Except String (AiResponse WToolCall)) :
    ChatState WToolCall × WsEffects :=
  if jsTrim st.userInput == "" || st.isLoading || st.pendingToolCall.isSome then
    (st, ⟨[], []⟩)
  else
    let newHistory := st.messages ++ [userMsg st.userInput]
    let st1 : ChatState WToolCall :=
      { st with messages := newHistory, userInput := "", isLoading := true }
    let step : ChatState WToolCall × List (List Filter) :=
      match gateway newHistory with
      | Except.ok resp =>
        match resp.toolCall with
        | some tc =>
          if tc.name == "searchRecords" then
            let stA :=
              match tc.args.responseMessage with
              | some m =>
                if m == "" then st1
                else { st1 with messages := st1.messages ++ [modelMsg m] }
              | none => st1
            match tc.args.filters with
            | some fs => (stA, [fs])
            | none => (stA, [])
          else
            match tc.args.confirmationMessage with
            | some m =>
              if m == "" then
                ({ st1 with messages := st1.messages ++ [modelMsg incompleteMsg] }, [])
              else
                ({ st1 with
                    messages := st1.messages ++ [modelMsg m],
                    pendingToolCall := some tc }, [])
            | none =>
              ({ st1 with messages := st1.messages ++ [modelMsg incompleteMsg] }, [])
        | none =>
          match resp.text with
          | some t =>
            if t == "" then
              ({ st1 with messages := st1.messages ++ [modelMsg unexpectedMsg] }, [])
            else
              ({ st1 with messages := st1.messages ++ [modelMsg t] }, [])
          | none =>
            ({ st1 with messages := st1.messages ++ [modelMsg unexpectedMsg] }, [])
      | Except.error _ =>
        ({ st1 with messages := st1.messages ++ [modelMsg chatErrorMsg] }, [])
    ({ step.1 with isLoading := false }, ⟨[newHistory], step.2⟩)

/-- First binding of a key in a field list: JS property access `obj[key]`
(`undefined` is `none`). -/
def getF : Fields → String → Option Value
  | [], _ => none
  | (k, v) :: rest, key => if k == key then some v else getF rest key

/-- JS object spread `{...base, ...upd}` restricted to lookup behaviour:
keys of `base` keep their position with `upd` values overriding, and keys
only in `upd` are appended. -/
def spread (base upd : Fields) : Fields :=
  base.map (fun kv =>
    match getF upd kv.1 with
    | some v => (kv.1, v)
    | none => kv)
  ++ upd.filter (fun kv => (getF base kv.1).isNone)

namespace LocalApi

/-- Result of a store operation of the local adapter: the operation outcome,
the new store contents, and the number of `localStorage.setItem` writes to
the records key it performed. -/
structure StoreResult (α : Type) where
  result : Except String α
  store : List Rec
  writes : Nat
deriving Repr

/-- Embedding of `getRecords` from `src/unnamed/part_014` (lines 35-39): returns the
persisted record list. -/
def getRecords (store : List Rec) : List Rec := store

/-- Embedding of `addRecord` from `src/unnamed/part_014` (lines 46-56): spreads the
submitted data, attaches the generated id (supplied here as `freshId`),
prepends the new record, and writes the list once. -/
def addRecord (store : List Rec) (freshId : String) (recordData : Fields) :
    StoreResult Rec × Rec :=
  let newRecord : Rec := ⟨freshId, recordData⟩
  (⟨Except.ok newRecord, newRecord :: store, 1⟩, newRecord)

/-- Text of an optional record id as it appears interpolated in the source's
error message (`undefined` when absent). -/
def idText : Option String → String
  | some s => s
  | none => "undefined"

/-- Embedding of `updateRecord` from `src/unnamed/part_014` (lines 58-74): maps over the
stored list merging `updates` into every record whose id matches, writes the
list once (also when nothing matched), and then throws when no record
matched.  The matched record reported is the last assignment made by the
`map` closure. -/
def updateRecord (store : List Rec) (recordId : Option String) (updates : Fields) :
    StoreResult Rec :=
  let updatedRecords := store.map (fun r =>
    if some r.id == recordId then Rec.mk r.id (spread r.fields updates) else r)
  { result :=
      match (updatedRecords.filter (fun r => some r.id == recordId)).getLast? with
      | some u => Except.ok u
      | none => Except.error ("Record with id (" ++ idText recordId ++ ") not found.")
    store := updatedRecords
    writes := 1 }

/-- Embedding of `deleteRecord` from `src/unnamed/part_014` (lines 76-81): filters the list
and writes it once; a non-matching id is not an error. -/
def deleteRecord (store : List Rec) (recordId : Option String) :
    List Rec × Nat :=
  (store.filter (fun r => !(some r.id == recordId)), 1)

end LocalApi

/-- Combined session state: the chat assistant state, the dashboard's local
record list (`DashboardScreen`'s `records` state), and the persisted store
(`part_014`'s records key in local storage). -/
structure SysState where
  chat : ChatState ToolCallPayload
  records : List Rec
  store : List Rec
deriving Repr

/-- Result of running the confirm flow: the new session state, the tool
calls dispatched by the chat handler, and the number of persisted store
writes performed. -/
structure FlowResult where
  sys : SysState
  dispatched : List (String × Args)
  writes : Nat
deriving Repr

/-- The confirm flow of the components variant, composed to quiescence:
`handleConfirmAction` (`components/AiChatAssistant.tsx` lines 62-90)
dispatching to the dashboard handlers (`components/DashboardScreen.tsx`)
backed by the local adapter (`part_014`).  The dashboard callbacks are
`async`, so the `switch` never throws for the three known tool names and the
success acknowledgment is appended regardless of the store outcome; a store
rejection only skips the local `setRecords`.  `freshId` supplies the id the
adapter generates on `addRecord`. -/
def confirmFlow (freshId : String) (s : SysState) : FlowResult :=
  match s.chat.pendingToolCall with
  | none => ⟨s, [], 0⟩
  | some tc =>
    let chatDone : ChatState ToolCallPayload :=
      { s.chat with
          messages := s.chat.messages ++ [modelMsg doneMsg],
          pendingToolCall := none }
    let chatFailed : ChatState ToolCallPayload :=
      { s.chat with
          messages := s.chat.messages ++ [modelMsg actionErrorMsg],
          pendingToolCall := none }
    if tc.name == "addRecord" then
      let res := LocalApi.addRecord s.store freshId (tc.args.recordData.getD [])
      ⟨⟨chatDone, res.2 :: s.records, res.1.store⟩, [(tc.name, tc.args)], res.1.writes⟩
    else if tc.name == "updateRecord" then
      let res := LocalApi.updateRecord s.store tc.args.recordId (tc.args.updates.getD [])
      let records :=
        match res.result with
        | Except.ok updated =>
          s.records.map (fun r => if some r.id == tc.args.recordId then updated else r)
        | Except.error _ => s.records
      ⟨⟨chatDone, records, res.store⟩, [(tc.name, tc.args)], res.writes⟩
    else if tc.name == "deleteRecord" then
      let res := LocalApi.deleteRecord s.store tc.args.recordId
      let records := s.records.filter (fun r => !(some r.id == tc.args.recordId))
      ⟨⟨chatDone, records, res.1⟩, [(tc.name, tc.args)], res.2⟩
    else
      ⟨⟨chatFailed, s.records, s.store⟩, [(tc.name, tc.args)], 0⟩

/-- The cancel flow: `handleCancelAction` touches only the chat state; the
record list and the store are not part of its data flow at all. -/
def cancelFlow (s : SysState) : SysState :=
  { s with chat := handleCancelAction s.chat }

namespace Dash

/-- Trace of a user-initiated dashboard action against the record cache:
the cache contents at the moment the server request is issued (no
`setRecords` precedes the `await` in the source), the cache after the
handler settles, and whether the awaited call rejected (in which case the
exception propagates and `setRecords` is never reached). -/
structure EditTrace where
  preIssue : List Rec
  final : List Rec
  threw : Bool
deriving DecidableEq, Repr

/-- Embedding of `handleSaveRecord` from `components/DashboardScreen.tsx` (lines 40-48):
with an `editingId` it awaits `apiService.updateRecord` and only then maps
the returned record into the cache; without one it awaits
`apiService.addRecord` and then prepends.  The awaited outcome is the
`server` argument. -/
def handleSaveRecord (records : List Rec) (editingId : Option String)
    (server : Except String Rec) : EditTrace :=
  match editingId with
  | some eid =>
    match server with
    | Except.ok updatedRecord =>
      ⟨records, records.map (fun r => if r.id == eid then updatedRecord else r), false⟩
    | Except.error _ => ⟨records, records, true⟩
  | none =>
    match server with
    | Except.ok newRecord => ⟨records, newRecord :: records, false⟩
    | Except.error _ => ⟨records, records, true⟩

/-- Embedding of `handleDelete` from `components/DashboardScreen.tsx` (lines 50-55): after
the native `window.confirm` (the `confirmed` argument) it awaits
`apiService.deleteRecord` and only then filters the cache. -/
def handleDelete (records : List Rec) (recordId : String) (confirmed : Bool)
    (server : Except String Unit) : EditTrace :=
  if confirmed then
    match server with
    | Except.ok _ => ⟨records, records.filter (fun r => !(r.id == recordId)), false⟩
    | Except.error _ => ⟨records, records, true⟩
  else
    ⟨records, records, false⟩

end Dash

/-- JS `String(v)` on the value domain. -/
def toStr : Value → String
  | Value.vNull => "null"
  | Value.vStr s => s
  | Value.vInt n => toString n
  | Value.vBool b => if b then ("true") else ("false")

/-- Numeric value of a digit character, if any. -/
def digitVal (c : Char) : Option Nat :=
  if c.isDigit then some (c.toNat - 48) else none

/-- Decimal reading of a non-empty all-digit character list. -/
def natOfDigits (cs : List Char) : Option Nat :=
  match cs with
  | [] => none
  | _ =>
    cs.foldl (fun acc c =>
      match acc, digitVal c with
      | some a, some d => some (a * 10 + d)
      | _, _ => none) (some 0)

/-- JS `Number(s)` on integer-literal strings: the empty string is `0`, a
(possibly negated) digit string is its value, anything else is `NaN`
(`none`). -/
def strToNum (s : String) : Option Int :=
  let t := jsTrim s
  if t == "" then some 0
  else
    match t.toList with
    | '-' :: rest => (natOfDigits rest).map (fun n => -(n : Int))
    | cs => (natOfDigits cs).map (fun n => (n : Int))

/-- JS `Number(v)` on the value domain (`Number(null) = 0`,
`Number(true) = 1`, `Number(false) = 0`). -/
def toNum : Value → Option Int
  | Value.vNull => some 0
  | Value.vStr s => strToNum s
  | Value.vInt n => some n
  | Value.vBool b => some (if b then 1 else 0)

/-- JS `>` after `Number` coercion: false whenever either side is `NaN`. -/
def numGt : Option Int → Option Int → Bool
  | some a, some b => decide (b < a)
  | _, _ => false

/-- JS `<` after `Number` coercion: false whenever either side is `NaN`. -/
def numLt : Option Int → Option Int → Bool
  | some a, some b => decide (a < b)
  | _, _ => false

/-- Substring test on character lists, used for JS `String.includes`. -/
def charsContain (needle : List Char) : List Char → Bool
  | [] => needle.isEmpty
  | c :: rest => needle.isPrefixOf (c :: rest) || charsContain needle rest

/-- JS `hay.includes(needle)`. -/
def strIncludes (hay needle : String) : Bool :=
  charsContain needle.toList hay.toList

/-- Property access `record[columnId]` on the workspace record shape
(`part_016`): the `id` column is the record id, any other column is read
from the dynamic fields. -/
def recordGet (r : Rec) (columnId : String) : Option Value :=
  if columnId == "id" then some (Value.vStr r.id) else getF r.fields columnId

/-- The per-filter predicate of `filteredRecords`
(`src/unnamed/part_009` lines 91-105): a `null`/missing record value fails
every operator; `EQUALS`, `NOT_EQUALS` and `CONTAINS` compare the record
value and the filter value as lower-cased strings; `GREATER_THAN` and
`LESS_THAN` compare them after `Number` coercion. -/
def matchesFilter (r : Rec) (f : Filter) : Bool :=
  match recordGet r f.columnId with
  | none => false
  | some Value.vNull => false
  | some v =>
    let recordValueStr := toLowerStr (toStr v)
    let filterValueStr := toLowerStr (toStr f.value)
    match f.operator with
    | FilterOperator.EQUALS => recordValueStr == filterValueStr
    | FilterOperator.NOT_EQUALS => recordValueStr != filterValueStr
    | FilterOperator.CONTAINS => strIncludes recordValueStr filterValueStr
    | FilterOperator.GREATER_THAN => numGt (toNum v) (toNum f.value)
    | FilterOperator.LESS_THAN => numLt (toNum v) (toNum f.value)

/-- The list `Object.values(record)` on the workspace record shape. -/
def recordValues (r : Rec) : List Value :=
  Value.vStr r.id :: r.fields.map Prod.snd

/-- The free-text search predicate of `filteredRecords`
(`src/unnamed/part_009` lines 111-115). -/
def matchesSearch (searchTerm : String) (r : Rec) : Bool :=
  (recordValues r).any (fun v =>
    strIncludes (toLowerStr (toStr v)) (toLowerStr searchTerm))

/-- Embedding of `filteredRecords` from `src/unnamed/part_009` (lines 85-119): the
structured filters are conjoined over the sorted list (the `sortedRecords`
memo, a reordering of the fetched set, supplied here as `sorted`), then the
free-text search is applied when non-empty. -/
def filteredRecords (sorted : List Rec) (filters : List Filter)
    (searchTerm : String) : List Rec :=
  let recordsToFilter :=
    if filters.length > 0 then
      sorted.filter (fun r => filters.all (fun f => matchesFilter r f))
    else sorted
  if searchTerm != "" then
    recordsToFilter.filter (fun r => matchesSearch searchTerm r)
  else recordsToFilter

/-! ### Helper lemmas about field lookup, spread, and store maps -/

theorem getF_append_some (l1 l2 : Fields) (k : String) (v : Value)
    (h : getF l1 k = some v) : getF (l1 ++ l2) k = some v := by
  induction l1 with
  | nil => simp [getF] at h
  | cons kv rest ih =>
    cases hk : kv.1 == k with
    | true =>
      obtain ⟨k1, v1⟩ := kv
      simp only [getF, hk, if_pos] at h ⊢
      · exact h
    | false =>
      obtain ⟨k1, v1⟩ := kv
      simp only [getF, hk] at h ⊢
      simp only [Bool.false_eq_true, if_false] at h ⊢
      exact ih h

theorem getF_append_none (l1 l2 : Fields) (k : String)
    (h : getF l1 k = none) : getF (l1 ++ l2) k = getF l2 k := by
  induction l1 with
  | nil => simp [getF]
  | cons kv rest ih =>
    obtain ⟨k1, v1⟩ := kv
    cases hk : k1 == k with
    | true => simp [getF, hk] at h
    | false =>
      simp only [getF, hk, Bool.false_eq_true, if_false] at h ⊢
      exact ih h

theorem getF_map_override (base upd : Fields) (k : String) :
    getF (base.map (fun kv =>
      match getF upd kv.1 with
      | some v => (kv.1, v)
      | none => kv)) k =
    (match getF base k with
     | some v =>
       (match getF upd k with
        | some w => some w
        | none => some v)
     | none => none) := by
  induction base with
  | nil => simp [getF]
  | cons kv rest ih =>
    obtain ⟨k1, v1⟩ := kv
    cases hk : k1 == k with
    | true =>
      have hkeq : k1 = k := by simpa using hk
      subst hkeq
      cases hu : getF upd k1 <;> simp [getF, hu, hk]
    | false =>
      cases hu : getF upd k1 <;>
        simpa [getF, hu, hk, Bool.false_eq_true, if_false] using ih

theorem getF_filter_of_none (base upd : Fields) (k : String)
    (h : getF base k = none) :
    getF (upd.filter (fun kv => (getF base kv.1).isNone)) k = getF upd k := by
  induction upd with
  | nil => simp [getF]
  | cons kv rest ih =>
    obtain ⟨k1, v1⟩ := kv
    cases hk : k1 == k with
    | true =>
      have hkeq : k1 = k := by simpa using hk
      subst hkeq
      simp [List.filter_cons, h, getF, hk]
    | false =>
      cases hb : (getF base k1).isNone <;>
        simp [List.filter_cons, hb, getF, hk, ih]

theorem getF_filter_of_some (base upd : Fields) (k : String) (v : Value)
    (h : getF base k = some v) :
    getF (upd.filter (fun kv => (getF base kv.1).isNone)) k = none := by
  induction upd with
  | nil => simp [getF]
  | cons kv rest ih =>
    obtain ⟨k1, v1⟩ := kv
    cases hk : k1 == k with
    | true =>
      have hkeq : k1 = k := by simpa using hk
      subst hkeq
      simp [List.filter_cons, h, getF, hk, ih]
    | false =>
      cases hb : (getF base k1).isNone <;>
        simp [List.filter_cons, hb, getF, hk, ih]

/-- A key bound in the update wins in the spread. -/
theorem getF_spread_override (base upd : Fields) (k : String) (v : Value)
    (h : getF upd k = some v) : getF (spread base upd) k = some v := by
  unfold spread
  cases hb : getF base k with
  | some v0 =>
    apply getF_append_some
    rw [getF_map_override, hb, h]
  | none =>
    rw [getF_append_none]
    · rw [getF_filter_of_none base upd k hb, h]
    · rw [getF_map_override, hb]

/-- A key absent from the update is unchanged by the spread. -/
theorem getF_spread_frame (base upd : Fields) (k : String)
    (h : getF upd k = none) : getF (spread base upd) k = getF base k := by
  unfold spread
  cases hb : getF base k with
  | some v0 =>
    apply getF_append_some
    rw [getF_map_override, hb, h]
  | none =>
    rw [getF_append_none]
    · rw [getF_filter_of_none base upd k hb, h]
    · rw [getF_map_override, hb]

/-- Lookup by `find?` commutes with a map that preserves the predicate. -/
theorem find_map_pres (p : Rec → Bool) (f : Rec → Rec)
    (hf : ∀ r, p (f r) = p r) (l : List Rec) :
    (l.map f).find? p = (l.find? p).map f := by
  induction l with
  | nil => simp
  | cons r rest ih =>
    cases h : p r with
    | true =>
      rw [List.map_cons, List.find?_cons_of_pos _ (by rw [hf]; exact h),
        List.find?_cons_of_pos _ h]
      rfl
    | false =>
      rw [List.map_cons, List.find?_cons_of_neg _ (by rw [hf]; simp [h]),
        List.find?_cons_of_neg _ (by simp [h]), ih]

/-! ### Concrete sample data used by the witnesses and counterexamples -/

/-- Arguments naming record `r1`. -/
def argsR1 : Args := { Args.empty with recordId := some ("r1") }

/-- Arguments naming record `r1` with a confirmation message, as carried by
the workspace payloads. -/
def argsR1Conf : Args :=
  { Args.empty with
      recordId := some ("r1")
      confirmationMessage := some ("Delete record r1?") }

/-- A sample pending tool call of the components variant. -/
def tcEx : ToolCallPayload :=
  ⟨"deleteRecord", argsR1, "Delete record r1?"⟩

/-- A sample chat state with `tcEx` pending. -/
def stEx : ChatState ToolCallPayload :=
  ⟨[modelMsg ("Delete record r1?")], "and also r2", false, some tcEx⟩

/-- A sample pending tool call of the workspace variant. -/
def tcwEx : WToolCall :=
  ⟨"deleteRecord", argsR1Conf⟩

/-- A sample workspace chat state with `tcwEx` pending. -/
def stwEx : ChatState WToolCall :=
  ⟨[modelMsg ("Delete record r1?")], "and also r2", false, some tcwEx⟩

/-- A gateway stub for the components variant. -/
def gwEx : List ChatMessage → Except String (AiResponse ToolCallPayload) :=
  fun _ => Except.error ("offline")

/-- A gateway stub for the workspace variant. -/
def gwwEx : List ChatMessage → Except String (AiResponse WToolCall) :=
  fun _ => Except.error ("offline")

/-- Callbacks whose synchronous part always succeeds, matching the `async`
dashboard handlers. -/
def cbOk : Callbacks :=
  ⟨fun _ => Except.ok (), fun _ _ => Except.ok (), fun _ => Except.ok ()⟩

/-! ### Claim theorems -/

/-- C1: while a tool call is pending (`AwaitingConfirmation`), a further
free-text submission is a no-op in both chat-assistant variants: the send
handler returns the state unchanged and performs no gateway call, no
transcript append and no state change; the pending slot, being a single
option, holds at most one payload. -/
theorem pending_blocks_send (st : ChatState ToolCallPayload) (stw : ChatState WToolCall)
    (gw : List ChatMessage → Except String (AiResponse ToolCallPayload))
    (gww : List ChatMessage → Except String (AiResponse WToolCall))
    (tc : ToolCallPayload) (tcw : WToolCall)
    (h1 : st.pendingToolCall = some tc) (h2 : stw.pendingToolCall = some tcw) :
    handleSendMessage st gw = ⟨st, []⟩ ∧
    wsHandleSendMessage stw gww = (stw, ⟨[], []⟩) ∧
    st.pendingToolCall.toList.length ≤ 1 := by
  refine ⟨?_, ?_, ?_⟩
  · unfold handleSendMessage
    rw [h1]
    simp
  · unfold wsHandleSendMessage
    rw [h2]
    simp
  · rw [h1]
    simp

/-- Witness for C1 at a concrete pending state. -/
theorem pending_blocks_send_witness :
    stEx.pendingToolCall = some tcEx ∧ stwEx.pendingToolCall = some tcwEx ∧
    (handleSendMessage stEx gwEx = ⟨stEx, []⟩ ∧
     wsHandleSendMessage stwEx gwwEx = (stwEx, ⟨[], []⟩) ∧
     stEx.pendingToolCall.toList.length ≤ 1) :=
  ⟨rfl, rfl, pending_blocks_send stEx stwEx gwEx gwwEx tcEx tcwEx rfl rfl⟩

/-- C3: invoking the confirm handler on a pending tool call dispatches it
exactly once (no retry), appends exactly one acknowledgment — `doneMsg`
when the dispatch succeeds, `actionErrorMsg` when it throws — and clears
the pending slot unconditionally in both cases, returning to `Idle`. -/
theorem confirm_acknowledges_and_clears (st : ChatState ToolCallPayload)
    (cb : Callbacks) (tc : ToolCallPayload) (h : st.pendingToolCall = some tc) :
    (handleConfirmAction st cb).dispatched = [(tc.name, tc.args)] ∧
    (handleConfirmAction st cb).state.pendingToolCall = none ∧
    (∀ u, dispatchSwitch cb tc.name tc.args = Except.ok u →
      (handleConfirmAction st cb).state.messages =
        st.messages ++ [modelMsg doneMsg]) ∧
    (∀ e, dispatchSwitch cb tc.name tc.args = Except.error e →
      (handleConfirmAction st cb).state.messages =
        st.messages ++ [modelMsg actionErrorMsg]) := by
  unfold handleConfirmAction
  rw [h]
  refine ⟨rfl, rfl, ?_, ?_⟩
  · intro u hu
    simp [hu]
  · intro e he
    simp [he]

/-- Witness for C3 at a concrete pending state with succeeding callbacks. -/
theorem confirm_acknowledges_and_clears_witness :
    stEx.pendingToolCall = some tcEx ∧
    ((handleConfirmAction stEx cbOk).dispatched = [(tcEx.name, tcEx.args)] ∧
     (handleConfirmAction stEx cbOk).state.pendingToolCall = none ∧
     (∀ u, dispatchSwitch cbOk tcEx.name tcEx.args = Except.ok u →
       (handleConfirmAction stEx cbOk).state.messages =
         stEx.messages ++ [modelMsg doneMsg]) ∧
     (∀ e, dispatchSwitch cbOk tcEx.name tcEx.args = Except.error e →
       (handleConfirmAction stEx cbOk).state.messages =
         stEx.messages ++ [modelMsg actionErrorMsg])) :=
  ⟨rfl, confirm_acknowledges_and_clears stEx cbOk tcEx rfl⟩

/-- C4: cancelling leaves the record store and the local record list
unchanged, appends exactly one cancellation acknowledgment, and clears the
pending slot; no store mutation occurs on any cancel. -/
theorem cancel_preserves_records_and_store (s : SysState) :
    (cancelFlow s).store = s.store ∧
    (cancelFlow s).records = s.records ∧
    (cancelFlow s).chat.messages = s.chat.messages ++ [modelMsg cancelMsg] ∧
    (cancelFlow s).chat.pendingToolCall = none :=
  ⟨rfl, rfl, rfl, rfl⟩

/-- C10: with no pending tool call (`Idle`), the confirm handler is a
complete no-op — no transcript append, no dispatch, no state change —
while the cancel handler still appends a cancellation acknowledgment:
confirm is guarded on a pending tool call, cancel is not. -/
theorem idle_confirm_noop_cancel_appends (st : ChatState ToolCallPayload)
    (cb : Callbacks) (h : st.pendingToolCall = none) :
    handleConfirmAction st cb = ⟨st, []⟩ ∧
    (handleCancelAction st).messages = st.messages ++ [modelMsg cancelMsg] ∧
    (handleCancelAction st).pendingToolCall = none := by
  refine ⟨?_, rfl, rfl⟩
  unfold handleConfirmAction
  rw [h]

/-- C2: confirming a pending `updateRecord{recordId: X, updates: U}` when a
record with id X is stored results in the stored record with id X having
exactly the fields of U at U's values, every field not in U unchanged and
the id unchanged, with exactly one persisted write issued for the whole
confirmation, and every record with a different id still stored. -/
theorem confirm_update_applies_exactly (freshId : String) (s : SysState)
    (tc : ToolCallPayload) (X : String) (U : Fields) (r0 : Rec)
    (hpend : s.chat.pendingToolCall = some tc)
    (hname : tc.name = "updateRecord")
    (hrid : tc.args.recordId = some X)
    (hupd : tc.args.updates = some U)
    (hfind : s.store.find? (fun r => r.id == X) = some r0) :
    (confirmFlow freshId s).writes = 1 ∧
    (∃ rX, (confirmFlow freshId s).sys.store.find? (fun r => r.id == X) = some rX ∧
      rX.id = r0.id ∧
      (∀ k v, getF U k = some v → getF rX.fields k = some v) ∧
      (∀ k, getF U k = none → getF rX.fields k = getF r0.fields k)) ∧
    (∀ r, r ∈ s.store → (r.id == X) = false →
      r ∈ (confirmFlow freshId s).sys.store) := by
  have hr0X : (r0.id == X) = true := by
    have h := List.find?_some hfind
    simpa using h
  have hne1 : (("updateRecord" : String) == "addRecord") = false := by decide
  have hne2 : (("updateRecord" : String) == "updateRecord") = true := by decide
  have hbeq : ∀ (a b : String), ((some a == some b) : Bool) = (a == b) :=
    fun a b => rfl
  have hid : r0.id = X := by simpa using hr0X
  have hpres : ∀ r : Rec,
      ((if some r.id == some X then Rec.mk r.id (spread r.fields U) else r).id
        == X) = (r.id == X) := by
    intro r
    by_cases h : (some r.id == some X) = true
    · simp [h]
    · simp [h]
  unfold confirmFlow
  rw [hpend]
  dsimp only
  rw [hname, hrid, hupd]
  simp only [hne1, hne2, Bool.false_eq_true, if_false, if_true,
    LocalApi.updateRecord, Option.getD_some]
  refine ⟨by trivial, ?_, ?_⟩
  · refine ⟨⟨r0.id, spread r0.fields U⟩, ?_,  rfl, ?_, ?_⟩
    · rw [find_map_pres (fun r => r.id == X)
        (fun r => if some r.id == some X then Rec.mk r.id (spread r.fields U) else r)
        hpres s.store, hfind]
      simp [hbeq, hid]
    · intro k v hk
      exact getF_spread_override r0.fields U k v hk
    · intro k hk
      exact getF_spread_frame r0.fields U k hk
  · intro r hr hne
    have hfr : (if some r.id == some X then Rec.mk r.id (spread r.fields U) else r)
        = r := by
      rw [hbeq, hne]
      simp
    exact List.mem_map.mpr ⟨r, hr, hfr⟩

/-- A stored record used in witnesses. -/
def recA : Rec := ⟨"a", [("title", Value.vStr ("Acme")), ("status", Value.vStr ("Open"))]⟩

/-- A second stored record used in witnesses. -/
def recB : Rec := ⟨"b", [("title", Value.vStr ("Beta")), ("status", Value.vStr ("Open"))]⟩

/-- An update payload setting `status` to `Done`. -/
def updU : Fields := [("status", Value.vStr ("Done"))]

/-- Arguments of a pending `updateRecord{recordId: "a", updates: updU}`. -/
def argsUpdA : Args :=
  { Args.empty with
      recordId := some ("a")
      updates := some updU }

/-- The pending update tool call used by the C2 witness. -/
def tcUpdA : ToolCallPayload :=
  ⟨"updateRecord", argsUpdA, "Set status of Acme to Done?"⟩

/-- Session state with `tcUpdA` pending over a two-record store. -/
def sysUpdA : SysState := ⟨⟨[], "", false, some tcUpdA⟩, [recA, recB], [recA, recB]⟩

/-- Witness for C2 at a concrete pending update over a concrete store. -/
theorem confirm_update_applies_exactly_witness :
    sysUpdA.chat.pendingToolCall = some tcUpdA ∧
    tcUpdA.name = "updateRecord" ∧
    tcUpdA.args.recordId = some ("a") ∧
    tcUpdA.args.updates = some updU ∧
    sysUpdA.store.find? (fun r => r.id == "a") = some recA ∧
    ((confirmFlow ("fresh") sysUpdA).writes = 1 ∧
     (∃ rX, (confirmFlow ("fresh") sysUpdA).sys.store.find? (fun r => r.id == "a")
         = some rX ∧
       rX.id = recA.id ∧
       (∀ k v, getF updU k = some v → getF rX.fields k = some v) ∧
       (∀ k, getF updU k = none → getF rX.fields k = getF recA.fields k)) ∧
     (∀ r, r ∈ sysUpdA.store → (r.id == "a") = false →
       r ∈ (confirmFlow ("fresh") sysUpdA).sys.store)) :=
  ⟨rfl, rfl, rfl, rfl, by decide,
    confirm_update_applies_exactly ("fresh") sysUpdA tcUpdA ("a") updU recA
      rfl rfl rfl rfl (by decide)⟩

/-- Arguments of a pending `deleteRecord{recordId: "zzz"}` naming an id
absent from the sample store. -/
def argsDelMissing : Args := { Args.empty with recordId := some ("zzz") }

/-- The pending delete tool call naming a non-existent record. -/
def tcDelMissing : ToolCallPayload :=
  ⟨"deleteRecord", argsDelMissing, "Delete record zzz?"⟩

/-- Session state with `tcDelMissing` pending over a store that has no
record with id `zzz`. -/
def sysDelMissing : SysState :=
  ⟨⟨[], "", false, some tcDelMissing⟩, [recA], [recA]⟩

/-- C6 counterexample: confirming a `deleteRecord` whose recordId does not
exist in the cache appends the fixed success acknowledgment and no failure
acknowledgment — the flow silently reports success, contrary to the claim
that a failure acknowledgment must be surfaced. -/
theorem delete_missing_done_counterexample :
    (confirmFlow ("fresh2") sysDelMissing).sys.chat.messages = [modelMsg doneMsg] ∧
    (confirmFlow ("fresh2") sysDelMissing).sys.store = [recA] ∧
    modelMsg actionErrorMsg ∉ (confirmFlow ("fresh2") sysDelMissing).sys.chat.messages := by
  refine ⟨rfl, by decide, by decide⟩

/-- C6 as amended: confirming a `deleteRecord` whose recordId Y does not
exist in the local cache does not crash — the adapter's `filter` removes
nothing and still performs its single write — but the flow silently reports
success: the fixed `doneMsg` acknowledgment is appended, no failure
acknowledgment is surfaced, the store is unchanged and the pending call is
cleared. -/
theorem delete_missing_silent_success (freshId : String) (s : SysState)
    (tc : ToolCallPayload) (Y : String)
    (hpend : s.chat.pendingToolCall = some tc)
    (hname : tc.name = "deleteRecord")
    (hrid : tc.args.recordId = some Y)
    (habs : ∀ r ∈ s.store, (r.id == Y) = false) :
    (confirmFlow freshId s).sys.store = s.store ∧
    (confirmFlow freshId s).writes = 1 ∧
    (confirmFlow freshId s).sys.chat.messages =
      s.chat.messages ++ [modelMsg doneMsg] ∧
    (confirmFlow freshId s).sys.chat.pendingToolCall = none := by
  have hne1 : (("deleteRecord" : String) == "addRecord") = false := by decide
  have hne2 : (("deleteRecord" : String) == "updateRecord") = false := by decide
  have hne3 : (("deleteRecord" : String) == "deleteRecord") = true := by decide
  unfold confirmFlow
  rw [hpend]
  dsimp only
  rw [hname, hrid]
  simp only [hne1, hne2, hne3, Bool.false_eq_true, if_false, if_true,
    LocalApi.deleteRecord]
  refine ⟨?_, by trivial, by trivial, by trivial⟩
  apply List.filter_eq_self.mpr
  intro r hr
  have h := habs r hr
  have : ((some r.id == some Y) : Bool) = (r.id == Y) := rfl
  rw [this, h]
  rfl

/-- Witness for the amended C6 at the concrete missing-id state. -/
theorem delete_missing_silent_success_witness :
    sysDelMissing.chat.pendingToolCall = some tcDelMissing ∧
    tcDelMissing.name = "deleteRecord" ∧
    tcDelMissing.args.recordId = some ("zzz") ∧
    (∀ r ∈ sysDelMissing.store, (r.id == "zzz") = false) ∧
    ((confirmFlow ("fresh3") sysDelMissing).sys.store = sysDelMissing.store ∧
     (confirmFlow ("fresh3") sysDelMissing).writes = 1 ∧
     (confirmFlow ("fresh3") sysDelMissing).sys.chat.messages =
       sysDelMissing.chat.messages ++ [modelMsg doneMsg] ∧
     (confirmFlow ("fresh3") sysDelMissing).sys.chat.pendingToolCall = none) :=
  ⟨rfl, rfl, rfl, by decide,
    delete_missing_silent_success ("fresh3") sysDelMissing tcDelMissing ("zzz")
      rfl rfl rfl (by decide)⟩

/-- The record data submitted by the C7 witness create call. -/
def newRecData : Fields :=
  [("title", Value.vStr ("Gamma")), ("status", Value.vStr ("Open")),
   ("amount", Value.vInt 7)]

/-- Arguments of a pending `addRecord{recordData: newRecData}`. -/
def argsAddNew : Args := { Args.empty with recordData := some newRecData }

/-- The pending create tool call used by the C7 witness. -/
def tcAddNew : ToolCallPayload :=
  ⟨"addRecord", argsAddNew, "Create a record for Gamma?"⟩

/-- Session state with `tcAddNew` pending. -/
def sysAddNew : SysState := ⟨⟨[], "", false, some tcAddNew⟩, [recA], [recA]⟩

/-- C7: confirming a create/add tool call with record data R and then
fetching the record list yields a list containing a record agreeing with R
on every field, differing only in the store-generated id (this adapter
generates no `created_at`). -/
theorem create_roundtrip (freshId : String) (s : SysState)
    (tc : ToolCallPayload) (R : Fields)
    (hpend : s.chat.pendingToolCall = some tc)
    (hname : tc.name = "addRecord")
    (hdata : tc.args.recordData = some R) :
    ∃ r, r ∈ LocalApi.getRecords (confirmFlow freshId s).sys.store ∧
      r.id = freshId ∧ (∀ k, getF r.fields k = getF R k) ∧
      (confirmFlow freshId s).writes = 1 := by
  have hn1 : (("addRecord" : String) == "addRecord") = true := by decide
  unfold confirmFlow
  rw [hpend]
  dsimp only
  rw [hname, hdata]
  simp only [hn1, if_true, LocalApi.addRecord, Option.getD_some]
  exact ⟨⟨freshId, R⟩, by simp [LocalApi.getRecords], rfl, fun k => rfl, by trivial⟩

/-- Witness for C7 at the concrete pending create. -/
theorem create_roundtrip_witness :
    sysAddNew.chat.pendingToolCall = some tcAddNew ∧
    tcAddNew.name = "addRecord" ∧
    tcAddNew.args.recordData = some newRecData ∧
    (∃ r, r ∈ LocalApi.getRecords (confirmFlow ("fresh4") sysAddNew).sys.store ∧
      r.id = "fresh4" ∧ (∀ k, getF r.fields k = getF newRecData k) ∧
      (confirmFlow ("fresh4") sysAddNew).writes = 1) :=
  ⟨rfl, rfl, rfl, create_roundtrip ("fresh4") sysAddNew tcAddNew newRecData rfl rfl rfl⟩

/-- The record list used by the C8 counterexample. -/
def c8records : List Rec := [⟨"r1", [("status", Value.vStr ("Open"))]⟩]

/-- The record the server returns for the C8 edit. -/
def c8updated : Rec := ⟨"r1", [("status", Value.vStr ("Done"))]⟩

/-- C8 counterexample: on a direct edit the cache at the moment the server
call is issued is still the unedited list (and differs from the edited
one), so the record list is not updated optimistically before server
confirmation; it is only written after the call resolves. -/
theorem direct_edit_not_optimistic_counterexample :
    (Dash.handleSaveRecord c8records (some ("r1")) (Except.ok c8updated)).preIssue
      = c8records ∧
    c8records ≠ [c8updated] ∧
    (Dash.handleSaveRecord c8records (some ("r1"))
        (Except.error ("Failed to update record"))).preIssue = c8records := by
  refine ⟨rfl, by decide, rfl⟩

/-- C8 as amended: after a user-initiated direct edit or delete the local
record list is updated only once the server call has succeeded; at the
moment the request is issued it still equals the prior snapshot, and when
the server call fails it is simply left unchanged — equal to the prior
snapshot — with no optimistic write and hence no rollback. -/
theorem direct_edit_applies_after_success (records : List Rec) (eid : String)
    (upd newRec : Rec) (e : String) (rid : String) :
    (Dash.handleSaveRecord records (some eid) (Except.ok upd)).preIssue = records ∧
    (Dash.handleSaveRecord records (some eid) (Except.ok upd)).final =
      records.map (fun r => if r.id == eid then upd else r) ∧
    (Dash.handleSaveRecord records (some eid) (Except.error e)).final = records ∧
    (Dash.handleSaveRecord records none (Except.ok newRec)).final =
      newRec :: records ∧
    (Dash.handleDelete records rid true (Except.ok ())).preIssue = records ∧
    (Dash.handleDelete records rid true (Except.ok ())).final =
      records.filter (fun r => !(r.id == rid)) ∧
    (Dash.handleDelete records rid true (Except.error e)).final = records :=
  ⟨rfl, rfl, rfl, rfl, rfl, rfl, rfl⟩

/-- An idle workspace chat state about to submit free text. -/
def wsIdle : ChatState WToolCall := ⟨[], "find done records", false, none⟩

/-- A `searchRecords` tool call carrying no confirmation message, no
response message and no filters. -/
def searchTc : WToolCall := ⟨"searchRecords", Args.empty⟩

/-- A gateway returning `searchTc`. -/
def gwSearch : List ChatMessage → Except String (AiResponse WToolCall) :=
  fun _ => Except.ok ⟨some searchTc, none⟩

/-- C5 counterexample: a gateway response containing a `searchRecords` tool
call with no confirmation message leaves the machine Idle but appends no
error message at all — the only transcript entry added is the user's own
turn — contrary to the claim that every tool call lacking confirmation text
yields an appended error message. -/
theorem search_missing_confirmation_counterexample :
    gwSearch [userMsg ("find done records")] = Except.ok ⟨some searchTc, none⟩ ∧
    searchTc.args.confirmationMessage = none ∧
    (wsHandleSendMessage wsIdle gwSearch).1.pendingToolCall = none ∧
    (wsHandleSendMessage wsIdle gwSearch).1.messages =
      [userMsg ("find done records")] ∧
    ((wsHandleSendMessage wsIdle gwSearch).1.messages.all
      (fun m => m.role == Role.user)) = true := by
  refine ⟨rfl, rfl, ?_, ?_, ?_⟩ <;> decide

/-- C5 as amended: in the workspace variant, a gateway response containing a
non-`searchRecords` tool call whose confirmation message is missing or
empty is treated as invalid — no pending tool call is stored (the machine
stays Idle) and the incomplete-response error message is appended.  A
`searchRecords` tool call is exempt (its confirmation text is optional),
and the components-variant gateway substitutes the non-empty default
confirmation for a missing or empty one, so its responses never carry a
missing confirmation message. -/
theorem missing_confirmation_stays_idle (st : ChatState WToolCall)
    (gw : List ChatMessage → Except String (AiResponse WToolCall))
    (resp : AiResponse WToolCall) (tc : WToolCall)
    (hpend : st.pendingToolCall = none)
    (hinput : (jsTrim st.userInput == "") = false)
    (hload : st.isLoading = false)
    (hgw : gw (st.messages ++ [userMsg st.userInput]) = Except.ok resp)
    (htc : resp.toolCall = some tc)
    (hname : (tc.name == "searchRecords") = false)
    (hconf : tc.args.confirmationMessage = none ∨
      tc.args.confirmationMessage = some ("")) :
    (wsHandleSendMessage st gw).1.pendingToolCall = none ∧
    (wsHandleSendMessage st gw).1.messages =
      st.messages ++ [userMsg st.userInput] ++ [modelMsg incompleteMsg] ∧
    (∀ name args, (gatewayToolCall name args).confirmationMessage ≠ "") := by
  have hdefault : defaultConfirmMsg ≠ "" := by decide
  refine ?_
  have hmain : (wsHandleSendMessage st gw).1.pendingToolCall = none ∧
      (wsHandleSendMessage st gw).1.messages =
        st.messages ++ [userMsg st.userInput] ++ [modelMsg incompleteMsg] := by
    unfold wsHandleSendMessage
    rw [hpend]
    simp only [hinput, hload, Option.isSome_none, Bool.or_self, Bool.or_false,
      Bool.false_eq_true, if_false]
    rw [hgw]
    dsimp only
    rw [htc]
    dsimp only
    rw [hname]
    simp only [Bool.false_eq_true, if_false]
    rcases hconf with h | h
    · rw [h]
      constructor <;> trivial
    · rw [h]
      simp only [beq_self_eq_true, if_true]
      constructor <;> trivial
  refine ⟨hmain.1, hmain.2, ?_⟩
  intro name args
  unfold gatewayToolCall
  cases h : args.confirmationMessage with
  | none => exact hdefault
  | some m =>
    by_cases hm : m = ""
    · subst hm
      simpa using hdefault
    · have hm2 : (m == "") = false := by simpa using hm
      simp only [hm2, Bool.false_eq_true, if_false]
      simpa using hm

/-- The invalid mutation tool call used by the C5 witness. -/
def tcNoConf : WToolCall :=
  ⟨"deleteRecord", { Args.empty with recordId := some ("r9") }⟩

/-- A gateway returning `tcNoConf`. -/
def gwNoConf : List ChatMessage → Except String (AiResponse WToolCall) :=
  fun _ => Except.ok ⟨some tcNoConf, none⟩

/-- Witness for the amended C5 at a concrete invalid response. -/
theorem missing_confirmation_stays_idle_witness :
    wsIdle.pendingToolCall = none ∧
    (jsTrim wsIdle.userInput == "") = false ∧
    wsIdle.isLoading = false ∧
    gwNoConf (wsIdle.messages ++ [userMsg wsIdle.userInput]) =
      Except.ok ⟨some tcNoConf, none⟩ ∧
    (⟨some tcNoConf, none⟩ : AiResponse WToolCall).toolCall = some tcNoConf ∧
    (tcNoConf.name == "searchRecords") = false ∧
    tcNoConf.args.confirmationMessage = none ∧
    ((wsHandleSendMessage wsIdle gwNoConf).1.pendingToolCall = none ∧
     (wsHandleSendMessage wsIdle gwNoConf).1.messages =
       wsIdle.messages ++ [userMsg wsIdle.userInput] ++ [modelMsg incompleteMsg] ∧
     (∀ name args, (gatewayToolCall name args).confirmationMessage ≠ "")) :=
  ⟨rfl, by decide, rfl, rfl, rfl, by decide, rfl,
    missing_confirmation_stays_idle wsIdle gwNoConf ⟨some tcNoConf, none⟩ tcNoConf
      rfl (by decide) rfl rfl rfl (by decide) (Or.inl rfl)⟩

/-- C9: with no free-text search active, the displayed record set produced
by `filteredRecords` over any reordering of the fetched set is exactly the
fetched records satisfying the conjunction of all structured filters, each
filter evaluated by its operator as embedded in `matchesFilter`. -/
theorem filters_conjunction_exact (records sorted : List Rec)
    (filters : List Filter) (hperm : sorted.Perm records) (r : Rec) :
    r ∈ filteredRecords sorted filters ("") ↔
      r ∈ records ∧ (filters.all (fun f => matchesFilter r f)) = true := by
  have hs : (("" : String) != "") = false := by decide
  unfold filteredRecords
  by_cases hf : filters.length > 0
  · simp only [hs, Bool.false_eq_true, if_false, if_pos hf, List.mem_filter,
      hperm.mem_iff]
  · have hnil : filters = [] := List.length_eq_zero.mp (by omega)
    subst hnil
    simp [hs, hperm.mem_iff]

/-- A record matching the sample status filter. -/
def recC : Rec := ⟨"c", [("status", Value.vStr ("Done")), ("amount", Value.vInt 5)]⟩

/-- The sample filter `status EQUALS "done"`. -/
def fStatusDone : Filter := ⟨"status", FilterOperator.EQUALS, Value.vStr ("done")⟩

/-- Witness for C9 over a genuinely permuted two-record list. -/
theorem filters_conjunction_exact_witness :
    ([recC, recA] : List Rec).Perm [recA, recC] ∧
    (recC ∈ filteredRecords [recC, recA] [fStatusDone] "" ↔
      recC ∈ [recA, recC] ∧
        (([fStatusDone].all (fun f => matchesFilter recC f)) = true)) :=
  ⟨by decide,
    filters_conjunction_exact [recA, recC] [recC, recA] [fStatusDone] (by decide) recC⟩

/-- Witness for C10 at a concrete idle state. -/
theorem idle_confirm_noop_cancel_appends_witness :
    (ChatState.mk [] "" false (none : Option ToolCallPayload)).pendingToolCall = none ∧
    (handleConfirmAction ⟨[], "", false, none⟩ cbOk = ⟨⟨[], "", false, none⟩, []⟩ ∧
     (handleCancelAction ⟨[], "", false, none⟩).messages =
       ([] : List ChatMessage) ++ [modelMsg cancelMsg] ∧
     (handleCancelAction ⟨[], "", false, none⟩).pendingToolCall = none) :=
  ⟨rfl, idle_confirm_noop_cancel_appends ⟨[], "", false, none⟩ cbOk rfl⟩

end Emerald
